import Mathlib

/-!
Verification of the substorm-detection repository's data utilities
(`src/utils.py`) and download pipeline (`src/data/supermag_download.py`),
as a shallow embedding in Lean 4.

Conventions:
* A numpy ndarray is modelled as a shape list together with its row-major
  flat data list (`NDArray`).
* Python lists of arrays become Lean lists; numpy fancy indexing
  `data[idx_list]` becomes `fancyIndex` (out-of-range indices are ruled out
  by hypotheses matching numpy's bounds check).
* `int(q)` on a nonnegative rational is floor; the split fractions used by
  the code lie in [0,1], where Python's truncation toward zero and floor
  coincide.
* The nondeterministic `np.random.shuffle` is modelled by parametrising
  over the resulting index permutation.
* HTTP attempts are modelled by an oracle `att : Nat → Option R`:
  `att i = none` means attempt number `i` raised (timeout / connection
  error), `att i = some r` means it returned response `r`.
-/

namespace Substorm

/-- A numpy ndarray: its shape and its row-major flat data. -/
structure NDArray (α : Type) where
  shape : List Nat
  data : List α
deriving Repr, DecidableEq

/-- Model of `np.reshape(a, s)`: succeeds iff the element count matches, keeping the
flat row-major data unchanged. -/
def npReshape {α : Type} (a : NDArray α) (s : List Nat) : Option (NDArray α) :=
  if a.data.length = s.prod then some ⟨s, a.data⟩ else none

/-- Body of the loop of `rnn_format_x` (src/utils.py):
`a0, a1, a2, a3 = np.shape(x); np.reshape(x, (a0, a2, a1*a3))`.
Requires a 4-dimensional input (the tuple unpacking fails otherwise). -/
def rnn_format_one {α : Type} (x : NDArray α) : Option (NDArray α) :=
  match x.shape with
  | [a0, a1, a2, a3] => npReshape x [a0, a2, a1 * a3]
  | _ => none

/-- Embedding of `rnn_format_x` (src/utils.py): maps `rnn_format_one` over the list. -/
def rnn_format_x {α : Type} : List (NDArray α) → Option (List (NDArray α))
  | [] => some []
  | x :: xs =>
    match rnn_format_one x, rnn_format_x xs with
    | some y, some ys => some (y :: ys)
    | _, _ => none

/-- Body of the loop of `linear_format_x` (src/utils.py):
`a0, a1, a2, a3 = np.shape(x); np.reshape(x, (a0, a1*a2*a3))`. -/
def linear_format_one {α : Type} (x : NDArray α) : Option (NDArray α) :=
  match x.shape with
  | [a0, a1, a2, a3] => npReshape x [a0, a1 * a2 * a3]
  | _ => none

/-- Embedding of `linear_format_x` (src/utils.py): maps `linear_format_one` over the list. -/
def linear_format_x {α : Type} : List (NDArray α) → Option (List (NDArray α))
  | [] => some []
  | x :: xs =>
    match linear_format_one x, linear_format_x xs with
    | some y, some ys => some (y :: ys)
    | _, _ => none

/-- numpy fancy indexing `data[idx_list]` along the first axis, rows of the
array being the list elements.  numpy raises on out-of-range indices; the
theorems carry the in-range hypothesis. -/
def fancyIndex {α : Type} (d : List α) (is : List Nat) : List α :=
  is.filterMap fun i => d.get? i

/-- Python's `x[:-r]` for a nonnegative `r`: for `r = 0` this is `x[:0]`,
the empty list (since `-0 == 0`); otherwise it drops the last `r` elements. -/
def pyNegTrim {α : Type} (x : List α) (r : Nat) : List α :=
  if r = 0 then [] else x.take (x.length - r)

/-- Embedding of `split_idx = int((1 - split) * list_of_data[0].shape[0])` (src/utils.py).
For `split ∈ [0,1]` the value is nonnegative, where Python's `int`
(truncation toward zero) is floor. -/
def splitIdx (split : Rat) (n : Nat) : Nat :=
  (⌊(1 - split) * (n : Rat)⌋).toNat

/-- Embedding of `split_data` (src/utils.py), with the (possibly shuffled) index array
`idx` passed explicitly.  Gathers `idx[:split_idx]` rows into the first
group and `idx[split_idx:]` rows into the second, identically for every
array; when `batch_size` is truthy, trims both groups by the remainders
computed from the first array (`i == 0`) only, via the slice `x[:-r]`. -/
def split_data {α : Type} (lod : List (List α)) (split : Rat)
    (idx : List Nat) (batch_size : Option Nat) :
    List (List α) × List (List α) :=
  let n := (lod.headD []).length
  let k := splitIdx split n
  let a := lod.map fun d => fancyIndex d (idx.take k)
  let b := lod.map fun d => fancyIndex d (idx.drop k)
  match batch_size with
  | none => (a, b)
  | some bs =>
    if bs = 0 then (a, b)
    else
      let ra := (a.headD []).length % bs
      let rb := (b.headD []).length % bs
      (a.map fun d => pyNegTrim d ra, b.map fun d => pyNegTrim d rb)

/-- Entry count of sklearn's `confusion_matrix`: the number of positions
where the true label is `t` and the predicted label is `p`
(`confusion_matrix(y_true, y_pred, labels=[1, 0])[i][j]` counts pairs
`(labels[i], labels[j])`). -/
def countTP : List Nat → List Nat → Nat → Nat → Nat
  | a :: ys, b :: ps, t, p =>
    (if a = t ∧ b = p then 1 else 0) + countTP ys ps t p
  | _, _, _, _ => 0

/-- Embedding of `confusion_mtx` (src/utils.py): the 2×2 confusion matrix with label
order `[1, 0]`, each row divided by its own sum
(`cm.astype('float') / cm.sum(axis=1)[:, np.newaxis]`).  The inputs are
already the flattened (`np.ravel`) label lists. -/
def confusion_mtx (yt yp : List Nat) : List (List Rat) :=
  let c11 := countTP yt yp 1 1
  let c10 := countTP yt yp 1 0
  let c01 := countTP yt yp 0 1
  let c00 := countTP yt yp 0 0
  [[(c11 : Rat) / ((c11 : Rat) + (c10 : Rat)), (c10 : Rat) / ((c11 : Rat) + (c10 : Rat))],
   [(c01 : Rat) / ((c01 : Rat) + (c00 : Rat)), (c00 : Rat) / ((c01 : Rat) + (c00 : Rat))]]

/-- Embedding of `date_range` (src/data/supermag_download.py): yields
`start + ((end - start)/intv) * i` for `i = 0, …, intv-1`, then `end`.
Timestamps are modelled as rationals. -/
def date_range (start stop : Rat) (intv : Nat) : List Rat :=
  ((List.range intv).map fun i : Nat => start + ((stop - start) / (intv : Rat)) * (i : Rat)) ++ [stop]

/-- Constant `MAX_TRIES` (src/data/supermag_download.py). -/
def MAX_TRIES : Nat := 5

/-- Constant `SLEEP_TIME` (src/data/supermag_download.py), in seconds. -/
def SLEEP_TIME : Nat := 5

/-- The retry loop shared by `getDataForStation` and `getAvailableStations`:
`tries = 0; while tries < MAX_TRIES: try: … break; except: tries += 1;
time.sleep(SLEEP_TIME)`.  `fuel` is `MAX_TRIES - tries`; the second
component accumulates the total seconds slept (one `SLEEP_TIME` after each
failed attempt). -/
def retryFrom {R : Type} (att : Nat → Option R) : Nat → Nat → Option R × Nat
  | 0, _ => (none, 0)
  | fuel + 1, tries =>
    match att tries with
    | some v => (some v, 0)
    | none =>
      let p := retryFrom att fuel (tries + 1)
      (p.1, p.2 + SLEEP_TIME)

/-- Embedding of `getDataForStation` (src/data/supermag_download.py): runs the retry
loop from `tries = 0`; if the loop exhausted `MAX_TRIES` it logs and
returns `None`, otherwise it parses the response into a table (parsing is
modelled as the identity on the response). -/
def getDataForStation {R : Type} (att : Nat → Option R) : Option R :=
  (retryFrom att MAX_TRIES 0).1

/-- Total seconds slept by the retry loop of `getDataForStation`. -/
def retrySleeps {R : Type} (att : Nat → Option R) : Nat :=
  (retryFrom att MAX_TRIES 0).2

/-- Embedding of `getAvailableStations` (src/data/supermag_download.py): same retry
loop; returns `None` after exhaustion (and also when the JSON payload has
no `stations` key, which the attempt oracle likewise reports as `none`). -/
def getAvailableStations (att : Nat → Option (List String)) : Option (List String) :=
  (retryFrom att MAX_TRIES 0).1

/-- A Python runtime error surfaced by the embedded code. -/
inductive PyErr : Type
  | typeError
deriving Repr, DecidableEq

/-- Python `len` applied to a possibly-`None` Python value: `len(None)` raises
`TypeError`. -/
def pyLen {α : Type} : Option (List α) → Except PyErr Nat
  | some l => Except.ok l.length
  | none => Except.error PyErr.typeError

/-- An `xarray.Dataset`, modelled as a key-value map from station code to
its (possibly absent, i.e. `None`) record. -/
def Dataset (DF : Type) : Type := String → Option (Option DF)

/-- The empty dataset `xr.Dataset()`. -/
def emptyDs {DF : Type} : Dataset DF := fun _ => none

/-- Assignment `data[station] = df`: stores the fetched record (which may be `None`)
under the station's key. -/
def dsSet {DF : Type} (d : Dataset DF) (k : String) (v : Option DF) : Dataset DF :=
  fun k' => if k' = k then some v else d k'

/-- Merge `xr.merge([d1, d2])`: union of the two maps, `d2` extending `d1`. -/
def xrMergeDs {DF : Type} (d1 d2 : Dataset DF) : Dataset DF :=
  fun k => match d2 k with
  | some v => some v
  | none => d1 k

/-- Embedding of `getDataForInterval` (src/data/supermag_download.py): resolves the
station list, then `print("{} stations…".format(len(station_list), …))` —
when the station query returned `None`, `len(None)` raises `TypeError`.
Otherwise every station is fetched in turn (each with its own attempt
oracle `dataAtt st`) and assigned into the dataset, missing records
included. -/
def getDataForInterval {DF : Type} (stAtt : Nat → Option (List String))
    (dataAtt : String → Nat → Option DF) : Except PyErr (Dataset DF) :=
  match pyLen (getAvailableStations stAtt) with
  | Except.error e => Except.error e
  | Except.ok _ =>
    match getAvailableStations stAtt with
    | none => Except.error PyErr.typeError
    | some stations =>
      Except.ok (stations.foldl (fun d st => dsSet d st (getDataForStation (dataAtt st))) emptyDs)

/-- Embedding of `downloadDataToFile` (src/data/supermag_download.py): assembles each
interval in turn and merges it into the year's dataset, which is then
written to the file (the written content is the returned dataset).  Each
interval is described by its station-query oracle and its per-station
fetch oracles. -/
def downloadDataToFile {DF : Type}
    (ints : List ((Nat → Option (List String)) × (String → Nat → Option DF))) :
    Except PyErr (Dataset DF) :=
  ints.foldl
    (fun acc p =>
      match acc with
      | Except.error e => Except.error e
      | Except.ok d =>
        match getDataForInterval p.1 p.2 with
        | Except.error e => Except.error e
        | Except.ok d2 => Except.ok (xrMergeDs d d2))
    (Except.ok emptyDs)

/-! ### A heap model for the mutation claim

To speak about in-place mutation, arrays are buffers in a store; numpy
operations either allocate a fresh buffer (`np.arange`, fancy-indexing
copies), write to an existing one (`np.random.shuffle`), or share a buffer
under new shape metadata (`np.reshape` returns a view and performs no
write, which is why `rnn_format_one`/`linear_format_one` above keep `data`
untouched). -/

/-- The store of numpy buffers, addressed by allocation order. -/
abbrev Store : Type := List (List Int)

/-- Read buffer `i`. -/
def readBuf (s : Store) (i : Nat) : List Int :=
  (s[i]?).getD []

/-- Allocate a fresh buffer holding `v`; returns the new store and the
fresh buffer's address. -/
def alloc (s : Store) (v : List Int) : Store × Nat :=
  (s ++ [v], s.length)

/-- Overwrite buffer `i` in place. -/
def writeBuf (s : Store) (i : Nat) (v : List Int) : Store :=
  s.set i v

/-- One iteration of the gather loops of `split_data`: allocate a fresh
copy of the selected rows of input buffer `j` and record its address. -/
def allocStep (f : Store → Nat → List Int) (p : Store × List Nat) (j : Nat) :
    Store × List Nat :=
  let q := alloc p.1 (f p.1 j)
  (q.1, p.2 ++ [q.2])

/-- Embedding of `split_data` (src/utils.py) at the heap level, `batch_size=None`.
`idx = np.arange(n)` allocates a fresh buffer; `np.random.shuffle(idx)`
writes the permuted contents (`shuffle`) back into that same buffer; each
`data[idx[:split_idx]]` / `data[idx[split_idx:]]` allocates a fresh copy. -/
def split_dataH (s : Store) (inIds : List Nat) (split : Rat)
    (shuffle : List Int → List Int) : Store × List Nat × List Nat :=
  let n := (readBuf s (inIds.headD 0)).length
  let k := splitIdx split n
  let p1 := alloc s ((List.range n).map Int.ofNat)
  let s2 := writeBuf p1.1 p1.2 (shuffle (readBuf p1.1 p1.2))
  let idx := (readBuf s2 p1.2).map Int.toNat
  let qa := inIds.foldl (allocStep fun st j => fancyIndex (readBuf st j) (idx.take k)) (s2, [])
  let qb := inIds.foldl (allocStep fun st j => fancyIndex (readBuf st j) (idx.drop k)) (qa.1, [])
  (qb.1, qa.2, qb.2)

/-! ### Concrete inputs used by counterexamples and witnesses -/

/-- A concrete 4-dimensional array of shape `(1, 2, 3, 4)`. -/
def arrC1 : NDArray Nat := ⟨[1, 2, 3, 4], List.range 24⟩

/-- A concrete 4-dimensional array of shape `(2, 3, 4, 5)`. -/
def arrC1w : NDArray Nat := ⟨[2, 3, 4, 5], List.range 120⟩

/-- Attempt oracle that fails on attempts 0–3 and succeeds on attempt 4. -/
def attFour : Nat → Option Nat := fun i => if i < 4 then none else some 7

/-- Attempt oracle that fails on every attempt. -/
def attAll : Nat → Option Nat := fun _ => none

/-- Station-query attempt oracle that fails on every attempt. -/
def stAttAll : Nat → Option (List String) := fun _ => none

/-- Station-query attempt oracle that immediately returns two stations. -/
def stAttOk : Nat → Option (List String) := fun _ => some ["OTT", "YKC"]

/-- Per-station fetch oracles: every attempt for station "YKC" fails,
station "OTT" succeeds immediately. -/
def dataAttC6 : String → Nat → Option Nat :=
  fun st _ => if st = "OTT" then some 3 else none

/-- A concrete store holding one input buffer. -/
def storeC9 : Store := [[10, 20, 30, 40]]

/-! ## Helper lemmas -/

/-- Fancy indexing with in-range indices yields one row per index. -/
lemma fancyIndex_length {α : Type} (d : List α) (is : List Nat)
    (h : ∀ i ∈ is, i < d.length) : (fancyIndex d is).length = is.length := by
  induction is with
  | nil => rfl
  | cons i is ih =>
    have hi : i < d.length := h i (List.mem_cons_self i is)
    have hg : d.get? i = some (d.get ⟨i, hi⟩) := List.get?_eq_get hi
    simp only [fancyIndex, List.filterMap_cons, hg]
    simpa [fancyIndex] using ih fun j hj => h j (List.mem_cons_of_mem _ hj)

/-- Per-class row sum of the confusion counts: over binary predictions of
matching length, the two entries of the row for true label `t` add up to
the number of occurrences of `t` among the true labels. -/
lemma countTP_row (yt : List Nat) (t : Nat) :
    ∀ yp : List Nat, yt.length = yp.length → (∀ x ∈ yp, x = 0 ∨ x = 1) →
      countTP yt yp t 1 + countTP yt yp t 0 = yt.count t := by
  induction yt with
  | nil =>
    intro yp hlen _
    cases yp with
    | nil => rfl
    | cons b ps => simp at hlen
  | cons a ys ih =>
    intro yp hlen hb
    cases yp with
    | nil => simp at hlen
    | cons b ps =>
      have hlen' : ys.length = ps.length := by simpa using hlen
      have hb' : ∀ x ∈ ps, x = 0 ∨ x = 1 := fun x hx => hb x (List.mem_cons_of_mem _ hx)
      have H := ih ps hlen' hb'
      have hbb : b = 0 ∨ b = 1 := hb b (List.mem_cons_self b ps)
      by_cases hat : a = t
      · rcases hbb with rfl | rfl <;>
          simp [countTP, hat, List.count_cons, H] <;> omega
      · rcases hbb with rfl | rfl <;>
          simp [countTP, hat, List.count_cons, H]

/-- Folding station assignments never touches a key outside the list. -/
lemma foldl_dsSet_not_mem {DF : Type} (f : String → Option DF) (sl : List String)
    (d : Dataset DF) (st : String) (h : st ∉ sl) :
    (sl.foldl (fun d s => dsSet d s (f s)) d) st = d st := by
  induction sl generalizing d with
  | nil => rfl
  | cons s rest ih =>
    have hs : st ≠ s := fun heq => h (heq ▸ List.mem_cons_self s rest)
    have hrest : st ∉ rest := fun hin => h (List.mem_cons_of_mem _ hin)
    rw [List.foldl_cons, ih _ hrest, dsSet, if_neg hs]

/-- After folding station assignments, every listed station's key holds its
fetched value. -/
lemma foldl_dsSet_mem {DF : Type} (f : String → Option DF) (sl : List String)
    (d : Dataset DF) (st : String) (h : st ∈ sl) :
    (sl.foldl (fun d s => dsSet d s (f s)) d) st = some (f st) := by
  induction sl generalizing d with
  | nil => cases h
  | cons s rest ih =>
    by_cases hst : st ∈ rest
    · exact ih _ hst
    · have : st = s := by
        rcases List.mem_cons.mp h with h1 | h2
        · exact h1
        · exact absurd h2 hst
      subst this
      rw [List.foldl_cons, foldl_dsSet_not_mem f rest _ st hst, dsSet, if_pos rfl]

/-- When the station query succeeds, the interval assembler returns the
fold of the per-station assignments. -/
lemma getDataForInterval_ok {DF : Type} (stAtt : Nat → Option (List String))
    (dataAtt : String → Nat → Option DF) (sl : List String)
    (hsl : getAvailableStations stAtt = some sl) :
    getDataForInterval stAtt dataAtt
      = Except.ok (sl.foldl
          (fun d st => dsSet d st (getDataForStation (dataAtt st))) emptyDs) := by
  rw [getDataForInterval, hsl]
  rfl

/-- When every interval's station query succeeds, the year fold never
errors, whatever the per-station fetches return. -/
lemma downloadDataToFile_ok {DF : Type}
    (ints : List ((Nat → Option (List String)) × (String → Nat → Option DF)))
    (hok : ∀ p ∈ ints, (getAvailableStations p.1).isSome) :
    ∀ d0 : Dataset DF, ∃ y, ints.foldl
      (fun acc p =>
        match acc with
        | Except.error e => Except.error e
        | Except.ok d =>
          match getDataForInterval p.1 p.2 with
          | Except.error e => Except.error e
          | Except.ok d2 => Except.ok (xrMergeDs d d2)) (Except.ok d0) = Except.ok y := by
  induction ints with
  | nil => exact fun d0 => ⟨d0, rfl⟩
  | cons p rest ih =>
    intro d0
    obtain ⟨sl, hsl⟩ := Option.isSome_iff_exists.mp (hok p (List.mem_cons_self p rest))
    have hint := getDataForInterval_ok p.1 p.2 sl hsl
    rw [List.foldl_cons, hint]
    exact ih (fun q hq => hok q (List.mem_cons_of_mem _ hq)) _

/-- Reading below the length of the original store is unaffected by an
appended buffer. -/
lemma readBuf_append_lt (s t : Store) (i : Nat) (h : i < s.length) :
    readBuf (s ++ t) i = readBuf s i := by
  rw [readBuf, readBuf, List.getElem?_append_left h]

/-- An in-place write to one buffer leaves every other buffer unchanged. -/
lemma readBuf_set_ne (s : Store) (j i : Nat) (v : List Int) (h : j ≠ i) :
    readBuf (s.set j v) i = readBuf s i := by
  rw [readBuf, readBuf, List.getElem?_set_ne h]

/-- The gather loops only allocate: the store grows and every buffer that
already existed reads the same afterwards. -/
lemma allocStep_fold (f : Store → Nat → List Int) (l : List Nat) :
    ∀ p : Store × List Nat,
      p.1.length ≤ (l.foldl (allocStep f) p).1.length ∧
      ∀ i, i < p.1.length → readBuf ((l.foldl (allocStep f) p).1) i = readBuf p.1 i := by
  induction l with
  | nil => exact fun p => ⟨Nat.le_refl _, fun _ _ => rfl⟩
  | cons j l ih =>
    intro p
    have hstep : (allocStep f p j).1 = p.1 ++ [f p.1 j] := rfl
    have hlen : p.1.length ≤ (allocStep f p j).1.length := by
      rw [hstep, List.length_append]; omega
    obtain ⟨hle, hread⟩ := ih (allocStep f p j)
    refine ⟨Nat.le_trans hlen hle, fun i hi => ?_⟩
    rw [List.foldl_cons, hread i (Nat.lt_of_lt_of_le hi hlen), hstep,
      readBuf_append_lt _ _ _ hi]

/-! ## Claims -/

/-- C1, counterexample: `rnn_format_x` does not collapse the last two of
the four dimensions.  On a 4-dimensional array of shape `(1, 2, 3, 4)` the
code produces shape `(1, 3, 8)` — that is `(a0, a2, a1*a3)` — and not the
claimed `(a0, a1, a2*a3) = (1, 2, 12)`. -/
theorem rnn_format_collapse_counterexample :
    (rnn_format_one arrC1).map NDArray.shape = some [1, 3, 8] ∧
    ¬ (rnn_format_one arrC1).map NDArray.shape = some [1, 2, 12] := by
  constructor <;> decide

/-- C1, amended: `rnn_format_x` reshapes every 4-dimensional array of
shape `(a0, a1, a2, a3)` into shape `(a0, a2, a1*a3)`, preserving the
row-major element order unchanged, so that reshaping the result back to
the original four dimensions recovers the original array exactly. -/
theorem rnn_format_reshape (x : NDArray Nat) (a0 a1 a2 a3 : Nat)
    (hs : x.shape = [a0, a1, a2, a3]) (hw : x.data.length = a0 * a1 * a2 * a3) :
    ∃ y, rnn_format_one x = some y ∧ y.shape = [a0, a2, a1 * a3] ∧
      y.data = x.data ∧ npReshape y [a0, a1, a2, a3] = some x := by
  obtain ⟨sh, d⟩ := x
  simp only at hs hw
  subst hs
  refine ⟨⟨[a0, a2, a1 * a3], d⟩, ?_, rfl, rfl, ?_⟩
  · show npReshape ⟨[a0, a1, a2, a3], d⟩ [a0, a2, a1 * a3] = some ⟨[a0, a2, a1 * a3], d⟩
    unfold npReshape
    rw [if_pos]
    simp only [List.prod_cons, List.prod_nil]
    rw [hw]; ring
  · unfold npReshape
    rw [if_pos]
    simp only [List.prod_cons, List.prod_nil]
    rw [hw]; ring

/-- C1, witness: the amended statement at the concrete shape
`(2, 3, 4, 5)`. -/
theorem rnn_format_reshape_witness :
    ∃ y, rnn_format_one arrC1w = some y ∧ y.shape = [2, 4, 3 * 5] ∧
      y.data = arrC1w.data ∧ npReshape y [2, 3, 4, 5] = some arrC1w :=
  rnn_format_reshape arrC1w 2 3 4 5 rfl (by simp [arrC1w])

/-- C2: with `list_of_data = [[0,1,2,3]]`, `split = 1/2`, an unshuffled
index array and `batch_size = 2`, both groups have exactly 2 samples — an
exact multiple of the batch size, remainder 0 — yet the trimming slice
`x[:-0] = x[:0]` empties both groups instead of leaving them unchanged
(the pre-trim result would be `([[0,1]], [[2,3]])`). -/
theorem split_data_zero_remainder_drops_all :
    split_data [[0, 1, 2, 3]] (1/2 : Rat) [0, 1, 2, 3] (some 2) = ([[]], [[]]) ∧
    ¬ split_data [[0, 1, 2, 3]] (1/2 : Rat) [0, 1, 2, 3] (some 2)
        = split_data [[0, 1, 2, 3]] (1/2 : Rat) [0, 1, 2, 3] none := by
  have h : splitIdx (1/2 : Rat) (([[0, 1, 2, 3]].headD ([] : List Nat)).length) = 2 := by
    norm_num [splitIdx]; decide
  constructor <;> · simp only [split_data, h]; decide

/-- C3: before any batch-size trimming, `split_data` applies the same
index permutation to every array — group one is always
`data[idx[:split_idx]]` and group two always `data[idx[split_idx:]]` —
the two group sizes sum to the input length `n` for every array in the
list, and every row index `i < n` lies in exactly one of the two index
groups. -/
theorem split_data_partition {α : Type} (lod : List (List α)) (n : Nat) (split : Rat)
    (idx : List Nat) (hne : lod ≠ []) (hlen : ∀ d ∈ lod, d.length = n)
    (hperm : List.Perm idx (List.range n)) :
    (split_data lod split idx none).1
        = lod.map (fun d => fancyIndex d (idx.take (splitIdx split n))) ∧
    (split_data lod split idx none).2
        = lod.map (fun d => fancyIndex d (idx.drop (splitIdx split n))) ∧
    (∀ d ∈ lod,
      (fancyIndex d (idx.take (splitIdx split n))).length
        + (fancyIndex d (idx.drop (splitIdx split n))).length = n) ∧
    (∀ i, i < n →
      (i ∈ idx.take (splitIdx split n) ∧ i ∉ idx.drop (splitIdx split n)) ∨
      (i ∉ idx.take (splitIdx split n) ∧ i ∈ idx.drop (splitIdx split n))) := by
  have hmem : ∀ i ∈ idx, i < n := fun i hi =>
    List.mem_range.mp (hperm.mem_iff.mp hi)
  have hidxlen : idx.length = n := by
    simpa using hperm.length_eq
  have hnodup : idx.Nodup := hperm.nodup_iff.mpr (List.nodup_range n)
  have h0 : ((lod.headD []).length) = n := by
    cases lod with
    | nil => exact absurd rfl hne
    | cons d0 rest => exact hlen d0 (List.mem_cons_self d0 rest)
  refine ⟨?_, ?_, ?_, ?_⟩
  · simp only [split_data, h0]
  · simp only [split_data, h0]
  · intro d hd
    have hdl : d.length = n := hlen d hd
    rw [fancyIndex_length d _ (fun i hi => hdl ▸ hmem i (List.take_subset _ _ hi)),
      fancyIndex_length d _ (fun i hi => hdl ▸ hmem i (List.drop_subset _ _ hi))]
    have hsum := congrArg List.length (List.take_append_drop (splitIdx split n) idx)
    rw [List.length_append] at hsum
    rw [hsum, hidxlen]
  · intro i hi
    have hin : i ∈ idx := hperm.mem_iff.mpr (List.mem_range.mpr hi)
    have hsplitmem : i ∈ idx.take (splitIdx split n) ∨ i ∈ idx.drop (splitIdx split n) := by
      rw [← List.mem_append, List.take_append_drop]
      exact hin
    have hdisj : List.Disjoint (idx.take (splitIdx split n)) (idx.drop (splitIdx split n)) := by
      have hnd : (idx.take (splitIdx split n) ++ idx.drop (splitIdx split n)).Nodup := by
        rw [List.take_append_drop]; exact hnodup
      exact List.disjoint_of_nodup_append hnd
    rcases hsplitmem with h1 | h2
    · exact Or.inl ⟨h1, fun h2 => hdisj h1 h2⟩
    · exact Or.inr ⟨fun h1 => hdisj h1 h2, h2⟩

/-- C3, witness: the partition statement at two aligned arrays of length 3,
split fraction 1/3 and the shuffled index array `[2, 0, 1]`. -/
theorem split_data_partition_witness :
    (split_data [[10, 20, 30], [5, 6, 7]] (1/3 : Rat) [2, 0, 1] none).1
        = [[10, 20, 30], [5, 6, 7]].map
            (fun d => fancyIndex d ([2, 0, 1].take (splitIdx (1/3 : Rat) 3))) ∧
    (split_data [[10, 20, 30], [5, 6, 7]] (1/3 : Rat) [2, 0, 1] none).2
        = [[10, 20, 30], [5, 6, 7]].map
            (fun d => fancyIndex d ([2, 0, 1].drop (splitIdx (1/3 : Rat) 3))) ∧
    (∀ d ∈ [[10, 20, 30], [5, 6, 7]],
      (fancyIndex d ([2, 0, 1].take (splitIdx (1/3 : Rat) 3))).length
        + (fancyIndex d ([2, 0, 1].drop (splitIdx (1/3 : Rat) 3))).length = 3) ∧
    (∀ i, i < 3 →
      (i ∈ [2, 0, 1].take (splitIdx (1/3 : Rat) 3) ∧ i ∉ [2, 0, 1].drop (splitIdx (1/3 : Rat) 3)) ∨
      (i ∉ [2, 0, 1].take (splitIdx (1/3 : Rat) 3) ∧ i ∈ [2, 0, 1].drop (splitIdx (1/3 : Rat) 3))) :=
  split_data_partition [[10, 20, 30], [5, 6, 7]] 3 (1/3 : Rat) [2, 0, 1]
    (by decide) (by decide) (by decide)

/-- C4: the fetch retries up to `MAX_TRIES = 5` attempts with a fixed
`SLEEP_TIME = 5` second delay after each failure: an attempt sequence that
fails 4 times and succeeds on the 5th returns the successful response
(with the 4 delays of 5 seconds between the attempts); one that fails on
all 5 attempts returns the `None` transient-failure result. -/
theorem retry_policy {R : Type} (att : Nat → Option R) (v : R) :
    MAX_TRIES = 5 ∧ SLEEP_TIME = 5 ∧
    ((∀ i, i < 4 → att i = none) → att 4 = some v →
      getDataForStation att = some v ∧ retrySleeps att = 4 * SLEEP_TIME) ∧
    ((∀ i, i < 5 → att i = none) →
      getDataForStation att = none ∧ retrySleeps att = 5 * SLEEP_TIME) := by
  refine ⟨rfl, rfl, ?_, ?_⟩
  · intro hf h4
    have e0 := hf 0 (by norm_num)
    have e1 := hf 1 (by norm_num)
    have e2 := hf 2 (by norm_num)
    have e3 := hf 3 (by norm_num)
    constructor <;>
      simp [getDataForStation, retrySleeps, MAX_TRIES, SLEEP_TIME, retryFrom,
        e0, e1, e2, e3, h4]
  · intro hf
    have e0 := hf 0 (by norm_num)
    have e1 := hf 1 (by norm_num)
    have e2 := hf 2 (by norm_num)
    have e3 := hf 3 (by norm_num)
    have e4 := hf 4 (by norm_num)
    constructor <;>
      simp [getDataForStation, retrySleeps, MAX_TRIES, SLEEP_TIME, retryFrom,
        e0, e1, e2, e3, e4]

/-- C4, witness: the two retry scenarios at concrete attempt oracles. -/
theorem retry_policy_witness :
    (getDataForStation attFour = some 7 ∧ retrySleeps attFour = 4 * SLEEP_TIME) ∧
    (getDataForStation attAll = none ∧ retrySleeps attAll = 5 * SLEEP_TIME) :=
  ⟨(retry_policy attFour 7).2.2.1
      (fun i hi => by simp [attFour, hi]) (by simp [attFour]),
   (retry_policy attAll 7).2.2.2 (fun i _ => rfl)⟩

/-- C5: when every station-inventory attempt fails, `getAvailableStations`
returns the logged `None` — but the caller `getDataForInterval` then
evaluates `len(station_list)` on that `None`, which raises `TypeError`
instead of treating the interval as having zero stations. -/
theorem station_retry_exhaustion_raises :
    getAvailableStations stAttAll = none ∧
    getDataForInterval stAttAll (fun _ _ => (none : Option Nat)) = Except.error PyErr.typeError :=
  ⟨rfl, rfl⟩

/-- C6: when the station query of an interval succeeds but some listed
station's fetch yields no record, the interval dataset still assembles,
holding the null record as the gap under that station's key, and the
yearly writer completes over this interval together with any further
intervals whose station queries succeed. -/
theorem interval_missing_station_gap {DF : Type} (stAtt : Nat → Option (List String))
    (dataAtt : String → Nat → Option DF) (sl : List String) (st : String)
    (hsl : getAvailableStations stAtt = some sl) (hst : st ∈ sl)
    (hmiss : getDataForStation (dataAtt st) = none) :
    (∃ d, getDataForInterval stAtt dataAtt = Except.ok d ∧ d st = some none) ∧
    (∀ ints : List ((Nat → Option (List String)) × (String → Nat → Option DF)),
      (∀ p ∈ ints, (getAvailableStations p.1).isSome) →
      ∃ y, downloadDataToFile ((stAtt, dataAtt) :: ints) = Except.ok y) := by
  constructor
  · refine ⟨_, getDataForInterval_ok stAtt dataAtt sl hsl, ?_⟩
    rw [foldl_dsSet_mem _ sl emptyDs st hst, hmiss]
  · intro ints hok
    rw [downloadDataToFile, List.foldl_cons, getDataForInterval_ok stAtt dataAtt sl hsl]
    exact downloadDataToFile_ok ints hok _

/-- C6, witness: a concrete interval listing stations OTT and YKC where
every fetch attempt for YKC fails. -/
theorem interval_missing_station_gap_witness :
    (∃ d, getDataForInterval stAttOk dataAttC6 = Except.ok d ∧ d "YKC" = some none) ∧
    (∀ ints : List ((Nat → Option (List String)) × (String → Nat → Option Nat)),
      (∀ p ∈ ints, (getAvailableStations p.1).isSome) →
      ∃ y, downloadDataToFile ((stAttOk, dataAttC6) :: ints) = Except.ok y) :=
  interval_missing_station_gap stAttOk dataAttC6 ["OTT", "YKC"] "YKC"
    rfl (by decide) rfl

/-- C7: on `y_true = [1,1,0,0]`, `y_pred = [1,0,0,1]` the 2×2 confusion
matrix with label order `[1, 0]`, after row normalisation, is
`[[1/2, 1/2], [1/2, 1/2]]`, and each of its two rows sums to 1. -/
theorem confusion_mtx_example :
    confusion_mtx [1, 1, 0, 0] [1, 0, 0, 1] = [[1/2, 1/2], [1/2, 1/2]] ∧
    (confusion_mtx [1, 1, 0, 0] [1, 0, 0, 1]).map List.sum = [1, 1] := by
  constructor <;> norm_num [confusion_mtx, countTP]

/-- C8: for `0 < intv`, `date_range start stop intv` yields `intv + 1`
timestamps: the `i`-th is `start + (stop - start) * i / intv` for
`i < intv`, and the last is `stop`. -/
theorem date_range_spec (start stop : Rat) (intv : Nat) (hpos : 0 < intv) :
    (date_range start stop intv).length = intv + 1 ∧
    (∀ i, i < intv → (date_range start stop intv).getD i 0
        = start + (stop - start) * (i : Rat) / (intv : Rat)) ∧
    (date_range start stop intv).getLast? = some stop := by
  refine ⟨?_, ?_, ?_⟩
  · rw [date_range, List.length_append, List.length_map, List.length_range]
    rfl
  · intro i hi
    have hlt : i < ((List.range intv).map
        fun j : Nat => start + ((stop - start) / (intv : Rat)) * (j : Rat)).length := by
      rw [List.length_map, List.length_range]; exact hi
    rw [date_range, List.getD_eq_getElem?_getD, List.getElem?_append_left hlt,
      List.getElem?_map, List.getElem?_range hi]
    simp only [Option.map_some', Option.getD_some]
    ring
  · rw [date_range, List.getLast?_concat]

/-- C8, witness: `date_range 0 1 4` yields the 5 equally spaced
timestamps. -/
theorem date_range_spec_witness :
    (date_range 0 1 4).length = 4 + 1 ∧
    (∀ i, i < 4 → (date_range 0 1 4).getD i 0 = 0 + (1 - 0) * (i : Rat) / (4 : Rat)) ∧
    (date_range 0 1 4).getLast? = some 1 :=
  date_range_spec 0 1 4 (by decide)

/-- C9: none of the three functions mutates its inputs.  At the heap
level, `split_data` leaves every input buffer's contents unchanged (its
only in-place write, the shuffle, targets the freshly allocated `arange`
buffer, and the gathered groups are fresh copies), and the two reshape
adapters return views carrying the input's data untouched. -/
theorem formats_no_mutation (s : Store) (inIds : List Nat) (split : Rat)
    (shuffle : List Int → List Int) (h : ∀ i ∈ inIds, i < s.length) :
    (∀ i ∈ inIds, readBuf (split_dataH s inIds split shuffle).1 i = readBuf s i) ∧
    (∀ (x y : NDArray Int), rnn_format_one x = some y → y.data = x.data) ∧
    (∀ (x y : NDArray Int), linear_format_one x = some y → y.data = x.data) := by
  refine ⟨?_, ?_, ?_⟩
  · intro i hi
    have hilt : i < s.length := h i hi
    simp only [split_dataH, alloc, writeBuf]
    set n := (readBuf s (inIds.headD 0)).length with hn
    set k := splitIdx split n with hk
    set v0 := (List.range n).map Int.ofNat with hv0
    set s2 := (s ++ [v0]).set s.length (shuffle (readBuf (s ++ [v0]) s.length)) with hs2
    set idx := (readBuf s2 s.length).map Int.toNat with hidx
    have hilt2 : i < s2.length := by
      rw [hs2, List.length_set, List.length_append]
      simp only [List.length_cons, List.length_nil]
      omega
    obtain ⟨hleA, hreadA⟩ := allocStep_fold
      (fun st j => fancyIndex (readBuf st j) (idx.take k)) inIds (s2, [])
    obtain ⟨hleB, hreadB⟩ := allocStep_fold
      (fun st j => fancyIndex (readBuf st j) (idx.drop k)) inIds
      ((inIds.foldl (allocStep fun st j => fancyIndex (readBuf st j) (idx.take k)) (s2, [])).1, [])
    rw [hreadB i (Nat.lt_of_lt_of_le hilt2 hleA), hreadA i hilt2]
    show readBuf s2 i = readBuf s i
    rw [hs2, readBuf_set_ne _ _ _ _ (Nat.ne_of_gt hilt), readBuf_append_lt _ _ _ hilt]
  · intro x y hxy
    unfold rnn_format_one at hxy
    split at hxy
    · unfold npReshape at hxy
      split at hxy
      · cases hxy; rfl
      · cases hxy
    · cases hxy
  · intro x y hxy
    unfold linear_format_one at hxy
    split at hxy
    · unfold npReshape at hxy
      split at hxy
      · cases hxy; rfl
      · cases hxy
    · cases hxy

/-- C9, witness: a concrete store and shuffle; the input buffer reads the
same before and after the split. -/
theorem formats_no_mutation_witness :
    readBuf (split_dataH storeC9 [0] (1/2 : Rat) (fun l => l.reverse)).1 0
      = readBuf storeC9 0 :=
  (formats_no_mutation storeC9 [0] (1/2 : Rat) (fun l => l.reverse)
    (by decide)).1 0 (by decide)

/-- C10: `confusion_mtx` divides each row by its own sum with no guard;
over binary predictions of matching length, its denominators — the two
row sums, exactly as cast in the entries of `confusion_mtx` — are both
nonzero if and only if the flattened true labels contain at least one 1
and at least one 0. -/
theorem confusion_mtx_denominators (yt yp : List Nat)
    (hlen : yt.length = yp.length) (hb : ∀ x ∈ yp, x = 0 ∨ x = 1) :
    ((1 ∈ yt ∧ 0 ∈ yt) ↔
      (((countTP yt yp 1 1 : Rat) + (countTP yt yp 1 0 : Rat) ≠ 0) ∧
       ((countTP yt yp 0 1 : Rat) + (countTP yt yp 0 0 : Rat) ≠ 0))) := by
  have h1 := countTP_row yt 1 yp hlen hb
  have h0 := countTP_row yt 0 yp hlen hb
  constructor
  · rintro ⟨m1, m0⟩
    constructor
    · rw [← Nat.cast_add, Ne, Nat.cast_eq_zero, h1]
      exact Nat.pos_iff_ne_zero.mp (List.count_pos_iff.mpr m1)
    · rw [← Nat.cast_add, Ne, Nat.cast_eq_zero, h0]
      exact Nat.pos_iff_ne_zero.mp (List.count_pos_iff.mpr m0)
  · rintro ⟨d1, d0⟩
    constructor
    · rw [← Nat.cast_add, Ne, Nat.cast_eq_zero, h1] at d1
      exact List.count_pos_iff.mp (Nat.pos_of_ne_zero d1)
    · rw [← Nat.cast_add, Ne, Nat.cast_eq_zero, h0] at d0
      exact List.count_pos_iff.mp (Nat.pos_of_ne_zero d0)

/-- C10, witness: the definedness equivalence at `y_true = [1, 0]`,
`y_pred = [1, 1]`. -/
theorem confusion_mtx_denominators_witness :
    ((1 ∈ [1, 0] ∧ 0 ∈ [1, 0]) ↔
      (((countTP [1, 0] [1, 1] 1 1 : Rat) + (countTP [1, 0] [1, 1] 1 0 : Rat) ≠ 0) ∧
       ((countTP [1, 0] [1, 1] 0 1 : Rat) + (countTP [1, 0] [1, 1] 0 0 : Rat) ≠ 0))) :=
  confusion_mtx_denominators [1, 0] [1, 1] rfl (by decide)

end Substorm
